import Mathlib

/-!
Verification of `parallel_translation.py` (parallel_translation_formatter).

Strings are modelled as `List Char` (a Python `str` is a sequence of Unicode
code points).  Python's `str.replace`, `str.strip`, `re.split` on the pattern
`(\[[^\]]+\])`, anchored `re.match` on `\[.+\]`, and the `ScrollableTextbox`
editor state are embedded as executable Lean functions below, translated
directly from the source.
-/

namespace PT

/-- Bool test: `p` is a prefix of the second list (mirrors Python slice
comparison used to locate a `str.replace` match site). -/
def isPre : List Char → List Char → Bool
  | [], _ => true
  | _ :: _, [] => false
  | a :: as, b :: bs => a = b && isPre as bs

/-- Bool test: `p` occurs as a contiguous substring (Python `p in s`). -/
def hasSub (p : List Char) : List Char → Bool
  | [] => p.isEmpty
  | c :: cs => isPre p (c :: cs) || hasSub p cs

/-- One fuelled pass of Python `str.replace(p, r)`: scan left to right; at a
match site emit `r` and resume after the matched text (non-overlapping),
otherwise keep one character and continue.  `fuel ≥ length` makes the fuel
irrelevant. -/
def replaceFuel (p r : List Char) : Nat → List Char → List Char
  | 0, s => s
  | _ + 1, [] => []
  | n + 1, c :: cs =>
    if isPre p (c :: cs) && !p.isEmpty then
      r ++ replaceFuel p r n (cs.drop (p.length - 1))
    else
      c :: replaceFuel p r n cs

/-- Python `s.replace(p, r)` for a nonempty pattern `p`. -/
def pyReplace (p r s : List Char) : List Char :=
  replaceFuel p r s.length s

/-- The `encoding_fixes` dict of `fix_encoding`, in Python 3 insertion order.
Code points transcribed from the source bytes: the garbled patterns are
`'Ã¡' 'Ã©' 'Ã­' 'Ã³' 'Ãº' 'Ã±' 'Ã' 'Â¡' 'Â¿'` followed by the uppercase
pairs `'Ã\x81' .. 'Ã\x91'`. -/
def encoding_fixes : List (List Char × List Char) :=
  [ (['\xc3', '\xa1'], ['\xe1']),
    (['\xc3', '\xa9'], ['\xe9']),
    (['\xc3', '\xad'], ['\xed']),
    (['\xc3', '\xb3'], ['\xf3']),
    (['\xc3', '\xba'], ['\xfa']),
    (['\xc3', '\xb1'], ['\xf1']),
    (['\xc3'], ['\xed']),
    (['\xc2', '\xa1'], ['\xa1']),
    (['\xc2', '\xbf'], ['\xbf']),
    (['\xc3', '\x81'], ['\xc1']),
    (['\xc3', '\x89'], ['\xc9']),
    (['\xc3', '\x8d'], ['\xcd']),
    (['\xc3', '\x93'], ['\xd3']),
    (['\xc3', '\x9a'], ['\xda']),
    (['\xc3', '\x91'], ['\xd1']) ]

/-- `fix_encoding`: apply each table entry with `str.replace`, in dict order. -/
def fix_encoding (s : List Char) : List Char :=
  encoding_fixes.foldl (fun t pr => pyReplace pr.1 pr.2 t) s

example : fix_encoding ['\xc3', '\xa1', 'n'] = ['\xe1', 'n'] := by decide

example : fix_encoding ['\xc3', '\x81'] = ['\xed', '\x81'] := by decide

example : fix_encoding ['\xc2', '\xc2', '\xa1'] = ['\xc2', '\xa1'] := by decide

example :
    fix_encoding (fix_encoding ['\xc2', '\xc2', '\xa1']) = ['\xa1'] := by decide

theorem mem_of_isPre {c : Char} : ∀ {p l : List Char}, isPre p l = true → c ∈ p → c ∈ l
  | [], _, _, hc => absurd hc (List.not_mem_nil c)
  | _ :: _, [], h, _ => by simp [isPre] at h
  | a :: as, b :: bs, h, hc => by
    simp only [isPre, Bool.and_eq_true, decide_eq_true_eq] at h
    rcases List.mem_cons.mp hc with rfl | hm
    · exact h.1 ▸ List.mem_cons_self _ _
    · exact List.mem_cons_of_mem _ (mem_of_isPre h.2 hm)

theorem mem_of_hasSub {c : Char} : ∀ {p s : List Char}, hasSub p s = true → c ∈ p → c ∈ s
  | p, [], h, hc => by
    simp only [hasSub, List.isEmpty_iff] at h
    subst h
    exact absurd hc (List.not_mem_nil c)
  | p, a :: as, h, hc => by
    simp only [hasSub, Bool.or_eq_true] at h
    rcases h with h | h
    · exact mem_of_isPre h hc
    · exact List.mem_cons_of_mem _ (mem_of_hasSub h hc)

theorem not_hasSub_of_not_mem {c : Char} {p s : List Char} (hc : c ∈ p) (h : c ∉ s) :
    hasSub p s = false := by
  cases hh : hasSub p s
  · rfl
  · exact absurd (mem_of_hasSub hh hc) h

theorem replaceFuel_eq_of_not_hasSub (p r : List Char) :
    ∀ n s, hasSub p s = false → replaceFuel p r n s = s
  | 0, _, _ => rfl
  | _ + 1, [], _ => rfl
  | n + 1, c :: cs, h => by
    have h' := h
    simp only [hasSub, Bool.or_eq_false_iff] at h'
    rw [replaceFuel, if_neg (by simp [h'.1]),
      replaceFuel_eq_of_not_hasSub p r n cs h'.2]

theorem mem_replaceFuel (p r : List Char) {c : Char} :
    ∀ n s, c ∈ replaceFuel p r n s → c ∈ s ∨ c ∈ r
  | 0, _, h => Or.inl h
  | _ + 1, [], h => absurd h (List.not_mem_nil c)
  | n + 1, a :: as, h => by
    rw [replaceFuel] at h
    split at h
    · rcases List.mem_append.mp h with h | h
      · exact Or.inr h
      · rcases mem_replaceFuel p r n _ h with h | h
        · exact Or.inl (List.mem_cons_of_mem a (List.drop_subset _ _ h))
        · exact Or.inr h
    · rcases List.mem_cons.mp h with rfl | h
      · exact Or.inl (List.mem_cons_self _ _)
      · rcases mem_replaceFuel p r n as h with h | h
        · exact Or.inl (List.mem_cons_of_mem a h)
        · exact Or.inr h

theorem not_mem_replaceFuel_single {a : Char} {r : List Char} (hr : a ∉ r) :
    ∀ n s, s.length ≤ n → a ∉ replaceFuel [a] r n s
  | 0, s, hlen => by
    have hs : s = [] := List.length_eq_zero.mp (Nat.le_zero.mp hlen)
    subst hs
    simp [replaceFuel]
  | _ + 1, [], _ => by simp [replaceFuel]
  | n + 1, c :: cs, hlen => by
    by_cases hac : a = c
    · subst hac
      rw [replaceFuel, if_pos (by simp [isPre])]
      simp only [List.length_cons, List.drop_zero, Nat.sub_self] at *
      intro hmem
      rcases List.mem_append.mp hmem with h | h
      · exact hr h
      · exact not_mem_replaceFuel_single hr n cs (Nat.le_of_succ_le_succ hlen)
          (by simpa using h)
    · rw [replaceFuel, if_neg (by simp [isPre, hac])]
      intro hmem
      rcases List.mem_cons.mp hmem with rfl | h
      · exact hac rfl
      · exact not_mem_replaceFuel_single hr n cs (Nat.le_of_succ_le_succ hlen) h

theorem pyReplace_eq_of_not_hasSub {p s : List Char} (r : List Char)
    (h : hasSub p s = false) : pyReplace p r s = s :=
  replaceFuel_eq_of_not_hasSub p r s.length s h

theorem notMem_pyReplace {c : Char} {p r s : List Char} (hs : c ∉ s) (hr : c ∉ r) :
    c ∉ pyReplace p r s := fun h => by
  rcases mem_replaceFuel p r s.length s h with h | h
  · exact hs h
  · exact hr h

theorem notMem_pyReplace_single {a : Char} {r : List Char} (hr : a ∉ r) (s : List Char) :
    a ∉ pyReplace [a] r s :=
  not_mem_replaceFuel_single hr s.length s (Nat.le_refl _)

/-- After `fix_encoding`, no `'Ã'` (U+00C3) remains: the seventh table entry
replaces every occurrence and the remaining entries never introduce one. -/
theorem fix_encoding_no_C3 (s : List Char) : '\xc3' ∉ fix_encoding s := by
  simp only [fix_encoding, encoding_fixes, List.foldl_cons, List.foldl_nil]
  refine notMem_pyReplace ?_ (by decide)
  refine notMem_pyReplace ?_ (by decide)
  refine notMem_pyReplace ?_ (by decide)
  refine notMem_pyReplace ?_ (by decide)
  refine notMem_pyReplace ?_ (by decide)
  refine notMem_pyReplace ?_ (by decide)
  refine notMem_pyReplace ?_ (by decide)
  refine notMem_pyReplace ?_ (by decide)
  exact notMem_pyReplace_single (by decide) _

/-- `fix_encoding` never introduces `'Â'` (U+00C2): if absent from the input it
is absent from the output (no replacement string contains it). -/
theorem fix_encoding_no_C2 {s : List Char} (hs : '\xc2' ∉ s) :
    '\xc2' ∉ fix_encoding s := by
  simp only [fix_encoding, encoding_fixes, List.foldl_cons, List.foldl_nil]
  refine notMem_pyReplace ?_ (by decide)
  refine notMem_pyReplace ?_ (by decide)
  refine notMem_pyReplace ?_ (by decide)
  refine notMem_pyReplace ?_ (by decide)
  refine notMem_pyReplace ?_ (by decide)
  refine notMem_pyReplace ?_ (by decide)
  refine notMem_pyReplace ?_ (by decide)
  refine notMem_pyReplace ?_ (by decide)
  refine notMem_pyReplace ?_ (by decide)
  refine notMem_pyReplace ?_ (by decide)
  refine notMem_pyReplace ?_ (by decide)
  refine notMem_pyReplace ?_ (by decide)
  refine notMem_pyReplace ?_ (by decide)
  refine notMem_pyReplace ?_ (by decide)
  exact notMem_pyReplace hs (by decide)

/-- On text containing neither `'Ã'` nor `'Â'`, no table pattern occurs, so
`fix_encoding` is the identity. -/
theorem fix_encoding_eq_self {t : List Char} (h3 : '\xc3' ∉ t) (h2 : '\xc2' ∉ t) :
    fix_encoding t = t := by
  simp only [fix_encoding, encoding_fixes, List.foldl_cons, List.foldl_nil]
  have e1 : pyReplace ['\xc3', '\xa1'] ['\xe1'] t = t :=
    pyReplace_eq_of_not_hasSub _ (not_hasSub_of_not_mem (by decide) h3)
  have e2 : pyReplace ['\xc3', '\xa9'] ['\xe9'] t = t :=
    pyReplace_eq_of_not_hasSub _ (not_hasSub_of_not_mem (by decide) h3)
  have e3 : pyReplace ['\xc3', '\xad'] ['\xed'] t = t :=
    pyReplace_eq_of_not_hasSub _ (not_hasSub_of_not_mem (by decide) h3)
  have e4 : pyReplace ['\xc3', '\xb3'] ['\xf3'] t = t :=
    pyReplace_eq_of_not_hasSub _ (not_hasSub_of_not_mem (by decide) h3)
  have e5 : pyReplace ['\xc3', '\xba'] ['\xfa'] t = t :=
    pyReplace_eq_of_not_hasSub _ (not_hasSub_of_not_mem (by decide) h3)
  have e6 : pyReplace ['\xc3', '\xb1'] ['\xf1'] t = t :=
    pyReplace_eq_of_not_hasSub _ (not_hasSub_of_not_mem (by decide) h3)
  have e7 : pyReplace ['\xc3'] ['\xed'] t = t :=
    pyReplace_eq_of_not_hasSub _ (not_hasSub_of_not_mem (by decide) h3)
  have e8 : pyReplace ['\xc2', '\xa1'] ['\xa1'] t = t :=
    pyReplace_eq_of_not_hasSub _ (not_hasSub_of_not_mem (by decide) h2)
  have e9 : pyReplace ['\xc2', '\xbf'] ['\xbf'] t = t :=
    pyReplace_eq_of_not_hasSub _ (not_hasSub_of_not_mem (by decide) h2)
  have e10 : pyReplace ['\xc3', '\x81'] ['\xc1'] t = t :=
    pyReplace_eq_of_not_hasSub _ (not_hasSub_of_not_mem (by decide) h3)
  have e11 : pyReplace ['\xc3', '\x89'] ['\xc9'] t = t :=
    pyReplace_eq_of_not_hasSub _ (not_hasSub_of_not_mem (by decide) h3)
  have e12 : pyReplace ['\xc3', '\x8d'] ['\xcd'] t = t :=
    pyReplace_eq_of_not_hasSub _ (not_hasSub_of_not_mem (by decide) h3)
  have e13 : pyReplace ['\xc3', '\x93'] ['\xd3'] t = t :=
    pyReplace_eq_of_not_hasSub _ (not_hasSub_of_not_mem (by decide) h3)
  have e14 : pyReplace ['\xc3', '\x9a'] ['\xda'] t = t :=
    pyReplace_eq_of_not_hasSub _ (not_hasSub_of_not_mem (by decide) h3)
  have e15 : pyReplace ['\xc3', '\x91'] ['\xd1'] t = t :=
    pyReplace_eq_of_not_hasSub _ (not_hasSub_of_not_mem (by decide) h3)
  rw [e1, e2, e3, e4, e5, e6, e7, e8, e9, e10, e11, e12, e13, e14, e15]

/-- C2: the claim says the two-byte garbled pattern always wins over its
one-byte fallback.  The code contradicts the evident intent of its own table:
the entry `'Ã'`→`'í'` precedes the uppercase entries `'Ã\x81'`→`'Á'` … in dict
order, so on input `"Ã\x81"` the fallback fires first, yielding `"í\x81"`
instead of the table's intended `"Á"` (the uppercase entries can never fire). -/
theorem fix_encoding_uppercase_preempted :
    fix_encoding ['\xc3', '\x81'] = ['\xed', '\x81'] ∧
      fix_encoding ['\xc3', '\x81'] ≠ ['\xc1'] := by decide

/-- C3 (counterexample): `fix_encoding` is not idempotent.  On `"ÂÂ¡"` one
application yields `"Â¡"` (the two `'Â'` overlap the pattern `'Â¡'` at one
site only), and a second application yields `"¡"`. -/
theorem fix_encoding_not_idempotent :
    fix_encoding (fix_encoding ['\xc2', '\xc2', '\xa1']) ≠
      fix_encoding ['\xc2', '\xc2', '\xa1'] := by decide

/-- C3 (amended): `fix_encoding` is idempotent on every string not containing
the character `'Â'` (U+00C2).  One application removes every `'Ã'` and
introduces no `'Ã'` or `'Â'`, so no table pattern occurs in the output and a
second application is the identity. -/
theorem fix_encoding_idempotent_of_no_C2 (s : List Char) (h : '\xc2' ∉ s) :
    fix_encoding (fix_encoding s) = fix_encoding s :=
  fix_encoding_eq_self (fix_encoding_no_C3 s) (fix_encoding_no_C2 h)

theorem fix_encoding_idempotent_of_no_C2_witness :
    '\xc2' ∉ ['h', 'o', 'l', '\xc3', '\xa1'] ∧
      fix_encoding (fix_encoding ['h', 'o', 'l', '\xc3', '\xa1']) =
        fix_encoding ['h', 'o', 'l', '\xc3', '\xa1'] :=
  ⟨by decide, fix_encoding_idempotent_of_no_C2 _ (by decide)⟩

/-- Unicode whitespace as recognised by Python's `str.strip()` /
`str.isspace()` (ASCII whitespace, the C1 separators, NEL, NBSP and the
Unicode space separators). -/
def isPySpace (c : Char) : Bool :=
  decide ((9 ≤ c.toNat ∧ c.toNat ≤ 13) ∨ (28 ≤ c.toNat ∧ c.toNat ≤ 31) ∨
    c.toNat = 32 ∨ c.toNat = 133 ∨ c.toNat = 160 ∨ c.toNat = 0x1680 ∨
    (0x2000 ≤ c.toNat ∧ c.toNat ≤ 0x200a) ∨ c.toNat = 0x2028 ∨
    c.toNat = 0x2029 ∨ c.toNat = 0x202f ∨ c.toNat = 0x205f ∨ c.toNat = 0x3000)

/-- Python `s.strip()`: drop leading and trailing whitespace. -/
def pyStrip (s : List Char) : List Char :=
  ((s.dropWhile isPySpace).reverse.dropWhile isPySpace).reverse

/-- One step of `re.split(r'(\[[^\]]+\])', text)`: `acc` holds the (reversed)
text scanned since the last match.  At `'['`, the greedy class `[^\]]+`
takes every character up to the first `']'`; the match succeeds iff that
body is nonempty and the `']'` is present.  Fuel `≥ length` is irrelevant. -/
def splitFuel : Nat → List Char → List Char → List (List Char)
  | 0, acc, s => [acc.reverse ++ s]
  | _ + 1, acc, [] => [acc.reverse]
  | n + 1, acc, c :: cs =>
    if c = '[' then
      let body := cs.takeWhile (fun x => x ≠ ']')
      let rest := cs.drop body.length
      if body ≠ [] ∧ rest ≠ [] then
        acc.reverse :: ('[' :: (body ++ [']'])) :: splitFuel n [] (rest.drop 1)
      else splitFuel n (c :: acc) cs
    else splitFuel n (c :: acc) cs

/-- `re.split(r'(\[[^\]]+\])', text)`: the pieces between matches interleaved
with the captured `[...]` markers (empty pieces included). -/
def splitParts (s : List Char) : List (List Char) :=
  splitFuel s.length [] s

/-- Helper for `looseMatch`: scan for a `']'` reachable without crossing a
newline (`.` in a Python regex does not match `'\n'`). -/
def scanClose : List Char → Bool
  | [] => false
  | c :: cs => if c = ']' then true else if c = '\n' then false else scanClose cs

/-- Anchored `re.match(r'\[.+\]', part) is not None`: a leading `'['`, then at
least one non-newline character, then a `']'` (with backtracking, the `']'`
may be any later one as long as no newline intervenes). -/
def looseMatch : List Char → Bool
  | '[' :: c :: rest => c ≠ '\n' && scanClose rest
  | _ => false

/-- The accumulation loop of `parse_character_dialogue`: parts that match the
loose label regex start a new `(character, dialogue)` pair (emitting the
previous one, dialogue stripped); other parts extend the current dialogue. -/
def parseLoop : List (List Char) → Option (List Char) → List Char →
    List (List Char × List Char)
  | [], none, _ => []
  | [], some ch, dia => [(ch, pyStrip dia)]
  | p :: ps, cur, dia =>
    if looseMatch p then
      match cur with
      | none => parseLoop ps (some p) []
      | some ch => (ch, pyStrip dia) :: parseLoop ps (some p) []
    else parseLoop ps cur (dia ++ p)

/-- The pop step of `parse_character_dialogue`: drop the first split piece
when it strips to the empty string (`if parts and not parts[0].strip()`). -/
def popParts : List (List Char) → List (List Char)
  | [] => []
  | p :: ps => if pyStrip p = [] then ps else p :: ps

/-- `parse_character_dialogue(text)`: whitespace-only input yields `[]`;
otherwise fix the encoding, split on bracketed markers, pop a leading
whitespace-only piece, and run the accumulation loop. -/
def parse_character_dialogue (text : List Char) : List (List Char × List Char) :=
  if pyStrip text = [] then []
  else parseLoop (popParts (splitParts (fix_encoding text))) none []

example :
    splitParts ("[Charlie] Hello there[Vaggie] Hi").toList =
      [[], ("[Charlie]").toList, (" Hello there").toList,
        ("[Vaggie]").toList, (" Hi").toList] := by decide

example :
    parse_character_dialogue ("[Charlie] Hello there[Vaggie] Hi").toList =
      [(("[Charlie]").toList, ("Hello there").toList),
        (("[Vaggie]").toList, ("Hi").toList)] := by decide

example :
    parse_character_dialogue ("[]x][A] hi").toList =
      [(("[]x]").toList, []), (("[A]").toList, ("hi").toList)] := by decide

/-- Python `s.strip('[]')`: drop the characters of the set from both ends
(used by `generate_latex`, not by the parser). -/
def pyStripChars (cset : List Char) (s : List Char) : List Char :=
  ((s.dropWhile cset.contains).reverse.dropWhile cset.contains).reverse

/-- C1 (counterexample): on `"[Charlie] Hello there[Vaggie] Hi"` the parser
does not strip the square brackets from the labels; the output is not the
claimed `[("Charlie", "Hello there"), ("Vaggie", "Hi")]`. -/
theorem parse_dialogue_example_brackets_kept :
    parse_character_dialogue ("[Charlie] Hello there[Vaggie] Hi").toList ≠
      [(("Charlie").toList, ("Hello there").toList),
        (("Vaggie").toList, ("Hi").toList)] := by decide

/-- C1 (amended): the parser yields the two pairs in order with the dialogue
text trimmed, but each label retains its square brackets (`current_character
= part` stores the captured `[...]` match verbatim); the brackets are only
stripped downstream by `generate_latex` via `strip('[]')`. -/
theorem parse_dialogue_example :
    parse_character_dialogue ("[Charlie] Hello there[Vaggie] Hi").toList =
      [(("[Charlie]").toList, ("Hello there").toList),
        (("[Vaggie]").toList, ("Hi").toList)] ∧
      pyStripChars ['[', ']'] ("[Charlie]").toList = ("Charlie").toList ∧
      pyStripChars ['[', ']'] ("[Vaggie]").toList = ("Vaggie").toList := by decide

/-- The accumulated dialogue is discarded while no character label has been
seen: `parseLoop` with `current_character = None` ignores its accumulator. -/
theorem parseLoop_none_acc (ps : List (List Char)) :
    ∀ d d' : List Char, parseLoop ps none d = parseLoop ps none d' := by
  induction ps with
  | nil => intro d d'; rfl
  | cons p ps ih =>
    intro d d'
    rw [parseLoop, parseLoop]
    split
    · rfl
    · exact ih (d ++ p) (d' ++ p)

/-- Popping-then-looping ignores a leading piece that is not a label. -/
theorem parseLoop_pop_nonlabel (h : List Char) (t : List (List Char))
    (hm : looseMatch h = false) :
    parseLoop (popParts (h :: t)) none [] = parseLoop t none [] := by
  rw [popParts]
  split
  · rfl
  · rw [parseLoop, if_neg (by simp [hm])]
    simpa using parseLoop_none_acc t h []

/-- C10 (amended): text before the first bracketed marker is discarded
provided it does not itself match the loose label regex `\[.+\]`: two inputs
whose split agrees after their (non-label) leading pieces parse identically,
and whitespace-only input parses to `[]`. -/
theorem parse_leading_discarded (s₁ s₂ : List Char) (h₁ h₂ : List Char)
    (t : List (List Char)) (w : List Char)
    (e₁ : splitParts (fix_encoding s₁) = h₁ :: t)
    (e₂ : splitParts (fix_encoding s₂) = h₂ :: t)
    (m₁ : looseMatch h₁ = false) (m₂ : looseMatch h₂ = false)
    (w₁ : pyStrip s₁ ≠ []) (w₂ : pyStrip s₂ ≠ []) (hw : pyStrip w = []) :
    parse_character_dialogue s₁ = parse_character_dialogue s₂ ∧
      parse_character_dialogue w = [] := by
  constructor
  · rw [parse_character_dialogue, if_neg w₁, e₁, parseLoop_pop_nonlabel h₁ t m₁,
      parse_character_dialogue, if_neg w₂, e₂, parseLoop_pop_nonlabel h₂ t m₂]
  · rw [parse_character_dialogue, if_pos hw]

theorem parse_leading_discarded_witness :
    parse_character_dialogue ("xx[A] hi").toList =
        parse_character_dialogue ("[A] hi").toList ∧
      parse_character_dialogue (" ").toList = [] :=
  parse_leading_discarded ("xx[A] hi").toList ("[A] hi").toList
    ("xx").toList [] [("[A]").toList, (" hi").toList] (" ").toList
    (by decide) (by decide) (by decide) (by decide) (by decide) (by decide)
    (by decide)

/-- C10 (counterexample): in `"[]x][A] hi"` the text before the first marker
`[A]` is the split piece `"[]x]"`; it is not discarded but emitted as the
label of the first output pair, because it matches the loose label regex
`\[.+\]` checked inside the loop while not matching the split pattern
`\[[^\]]+\]`. -/
theorem parse_leading_text_kept :
    splitParts (fix_encoding ("[]x][A] hi").toList) =
      [("[]x]").toList, ("[A]").toList, (" hi").toList] ∧
      parse_character_dialogue ("[]x][A] hi").toList =
        [(("[]x]").toList, []), (("[A]").toList, ("hi").toList)] := by decide

/-- Python `list.insert(i, x)` for `0 ≤ i` (clamped to the end beyond the
length, as in Python). -/
def pyInsertAt {α : Type} (i : Nat) (x : α) (l : List α) : List α :=
  l.take i ++ x :: l.drop i

/-- Editor state of `ScrollableTextbox`: the content and viewport fields.
The curses windows, origin, width and prompt are display-only and omitted;
`height` is the viewport height used by paging and scrolling. -/
structure ScrollableTextbox where
  lines : List (List Char)
  current_line : Nat
  current_col : Nat
  scroll_pos : Nat
  height : Nat
deriving DecidableEq, Repr

namespace ScrollableTextbox

/-- `self.lines[self.current_line]` (total via `getD`; every use in the
source is guarded in range). -/
def curLine (s : ScrollableTextbox) : List Char :=
  s.lines.getD s.current_line []

/-- `_move_up`. -/
def move_up (s : ScrollableTextbox) : ScrollableTextbox :=
  if 0 < s.current_line then
    { s with current_line := s.current_line - 1,
             current_col := min s.current_col
               (s.lines.getD (s.current_line - 1) []).length }
  else s

/-- `_move_down`. -/
def move_down (s : ScrollableTextbox) : ScrollableTextbox :=
  if s.current_line < s.lines.length - 1 then
    { s with current_line := s.current_line + 1,
             current_col := min s.current_col
               (s.lines.getD (s.current_line + 1) []).length }
  else s

/-- `_move_left`. -/
def move_left (s : ScrollableTextbox) : ScrollableTextbox :=
  if 0 < s.current_col then
    { s with current_col := s.current_col - 1 }
  else if 0 < s.current_line then
    { s with current_line := s.current_line - 1,
             current_col := (s.lines.getD (s.current_line - 1) []).length }
  else s

/-- `_move_right`. -/
def move_right (s : ScrollableTextbox) : ScrollableTextbox :=
  if s.current_col < s.curLine.length then
    { s with current_col := s.current_col + 1 }
  else if s.current_line < s.lines.length - 1 then
    { s with current_line := s.current_line + 1, current_col := 0 }
  else s

/-- `_page_up`; `max(0, a - b)` is Nat subtraction. -/
def page_up (s : ScrollableTextbox) : ScrollableTextbox :=
  { s with current_line := s.current_line - s.height,
           scroll_pos := s.scroll_pos - s.height,
           current_col := min s.current_col
             (s.lines.getD (s.current_line - s.height) []).length }

/-- `_page_down`. -/
def page_down (s : ScrollableTextbox) : ScrollableTextbox :=
  { s with current_line := min (s.lines.length - 1) (s.current_line + s.height),
           scroll_pos := min (s.lines.length - 1) (s.scroll_pos + s.height),
           current_col := min s.current_col
             (s.lines.getD (min (s.lines.length - 1) (s.current_line + s.height)) []).length }

/-- `_insert_char`. -/
def insert_char (c : Char) (s : ScrollableTextbox) : ScrollableTextbox :=
  { s with
    lines := s.lines.set s.current_line
        (s.curLine.take s.current_col ++ c :: s.curLine.drop s.current_col),
    current_col := s.current_col + 1 }

/-- `_insert_newline`: split the current line at the cursor column; cursor
moves to column 0 of the new second line. -/
def insert_newline (s : ScrollableTextbox) : ScrollableTextbox :=
  { s with
    lines := pyInsertAt (s.current_line + 1) (s.curLine.drop s.current_col)
      (s.lines.set s.current_line (s.curLine.take s.current_col)),
    current_line := s.current_line + 1,
    current_col := 0 }

/-- `_backspace`: delete before the cursor, or join with the previous line
when at column 0 of a non-first line. -/
def backspace (s : ScrollableTextbox) : ScrollableTextbox :=
  if 0 < s.current_col then
    { s with
      lines := s.lines.set s.current_line
          (s.curLine.take (s.current_col - 1) ++ s.curLine.drop s.current_col),
      current_col := s.current_col - 1 }
  else if 0 < s.current_line then
    { s with
      current_col := (s.lines.getD (s.current_line - 1) []).length,
      lines := (s.lines.set (s.current_line - 1)
        (s.lines.getD (s.current_line - 1) [] ++ s.curLine)).eraseIdx s.current_line,
      current_line := s.current_line - 1 }
  else s

/-- `_delete`: delete at the cursor, or join with the next line when at the
end of a non-last line. -/
def delete (s : ScrollableTextbox) : ScrollableTextbox :=
  if s.current_col < s.curLine.length then
    { s with
      lines := s.lines.set s.current_line
          (s.curLine.take s.current_col ++ s.curLine.drop (s.current_col + 1)) }
  else if s.current_line < s.lines.length - 1 then
    { s with
      lines := (s.lines.set s.current_line
          (s.curLine ++ s.lines.getD (s.current_line + 1) [])).eraseIdx
          (s.current_line + 1) }
  else s

/-- `_adjust_scroll`: scroll up if the cursor is above the viewport, down if
at or below its bottom edge. -/
def adjust_scroll (s : ScrollableTextbox) : ScrollableTextbox :=
  if s.current_line < s.scroll_pos then
    { s with scroll_pos := s.current_line }
  else if s.scroll_pos + s.height ≤ s.current_line then
    { s with scroll_pos := s.current_line - s.height + 1 }
  else s

end ScrollableTextbox

/-- The cursor-movement events of the dispatch loop (arrow keys, home/end,
page up/down). -/
inductive MoveOp where
  | up | down | left | right | home | toEnd | pageUp | pageDown
deriving DecidableEq, Repr

open ScrollableTextbox in
/-- Dispatch of one movement key in `edit` (home and end are handled inline
there: column 0, resp. end of current line). -/
def applyMove (op : MoveOp) (s : ScrollableTextbox) : ScrollableTextbox :=
  match op with
  | .up => move_up s
  | .down => move_down s
  | .left => move_left s
  | .right => move_right s
  | .home => { s with current_col := 0 }
  | .toEnd => { s with current_col := s.curLine.length }
  | .pageUp => page_up s
  | .pageDown => page_down s

/-- Apply a sequence of movement keys left to right. -/
def applyMoves (s : ScrollableTextbox) (ops : List MoveOp) : ScrollableTextbox :=
  ops.foldl (fun t op => applyMove op t) s

/-- The buffer invariant of the spec: at least one line, cursor line in
range, cursor column within the current line. -/
def Inv (s : ScrollableTextbox) : Prop :=
  0 < s.lines.length ∧ s.current_line < s.lines.length ∧
    s.current_col ≤ s.curLine.length

instance (s : ScrollableTextbox) : Decidable (Inv s) := by
  unfold Inv; infer_instance

/-- Bool test that the first list of moves is an initial segment of the
second. -/
def opsPre : List MoveOp → List MoveOp → Bool
  | [], _ => true
  | _ :: _, [] => false
  | a :: as, b :: bs => a = b && opsPre as bs

theorem inv_applyMove (op : MoveOp) (s : ScrollableTextbox) (h : Inv s) :
    Inv (applyMove op s) := by
  obtain ⟨h1, h2, h3⟩ := h
  rw [Inv] at *
  cases op <;>
    simp only [applyMove, ScrollableTextbox.move_up, ScrollableTextbox.move_down,
      ScrollableTextbox.move_left, ScrollableTextbox.move_right,
      ScrollableTextbox.page_up, ScrollableTextbox.page_down,
      ScrollableTextbox.curLine] at * <;>
    (try split_ifs) <;>
    (try simp only []) <;>
    omega

/-- C4: for every buffer state satisfying the invariant and every sequence of
cursor-movement operations, after each step (i.e. after every initial segment
of the sequence) the line count is ≥ 1, the cursor line indexes into the line
list, and the cursor column is at most the current line's length. -/
theorem moves_preserve_invariant (s : ScrollableTextbox) (ops p : List MoveOp)
    (hInv : Inv s) (_hp : opsPre p ops = true) : Inv (applyMoves s p) := by
  clear _hp
  induction p generalizing s with
  | nil => exact hInv
  | cons op p ih => exact ih (applyMove op s) (inv_applyMove op s hInv)

theorem moves_preserve_invariant_witness :
    Inv (applyMoves ⟨[['a', 'b'], ['c']], 0, 2, 0, 2⟩
      [MoveOp.down, MoveOp.right, MoveOp.toEnd]) :=
  moves_preserve_invariant ⟨[['a', 'b'], ['c']], 0, 2, 0, 2⟩
    [MoveOp.down, MoveOp.right, MoveOp.toEnd, MoveOp.pageUp]
    [MoveOp.down, MoveOp.right, MoveOp.toEnd] (by decide) (by decide)

/-- `_adjust_scroll` puts the cursor line inside the viewport window for any
state with positive viewport height, leaving the other fields unchanged. -/
theorem adjust_scroll_bounds (s : ScrollableTextbox) (hh : 1 ≤ s.height) :
    (ScrollableTextbox.adjust_scroll s).scroll_pos ≤
        (ScrollableTextbox.adjust_scroll s).current_line ∧
      (ScrollableTextbox.adjust_scroll s).current_line ≤
        (ScrollableTextbox.adjust_scroll s).scroll_pos +
          (ScrollableTextbox.adjust_scroll s).height - 1 := by
  rw [ScrollableTextbox.adjust_scroll]
  split_ifs <;> (try simp only []) <;> omega

theorem applyMove_height (op : MoveOp) (s : ScrollableTextbox) :
    (applyMove op s).height = s.height := by
  cases op <;>
    simp only [applyMove, ScrollableTextbox.move_up, ScrollableTextbox.move_down,
      ScrollableTextbox.move_left, ScrollableTextbox.move_right,
      ScrollableTextbox.page_up, ScrollableTextbox.page_down] <;>
    (try split_ifs) <;> rfl

/-- C5: after the scroll adjustment that follows any cursor movement, the
cursor line lies in `[scroll_pos, scroll_pos + height - 1]` and the first
visible line is ≥ 0 (indices are naturals, mirroring that the code keeps them
non-negative), assuming viewport height ≥ 1. -/
theorem adjust_scroll_after_move (s : ScrollableTextbox) (op : MoveOp)
    (hh : 1 ≤ s.height) :
    (ScrollableTextbox.adjust_scroll (applyMove op s)).scroll_pos ≤
        (ScrollableTextbox.adjust_scroll (applyMove op s)).current_line ∧
      (ScrollableTextbox.adjust_scroll (applyMove op s)).current_line ≤
        (ScrollableTextbox.adjust_scroll (applyMove op s)).scroll_pos +
          (ScrollableTextbox.adjust_scroll (applyMove op s)).height - 1 ∧
      0 ≤ (ScrollableTextbox.adjust_scroll (applyMove op s)).scroll_pos := by
  have h := adjust_scroll_bounds (applyMove op s)
    (by rw [applyMove_height]; exact hh)
  exact ⟨h.1, h.2, Nat.zero_le _⟩

theorem adjust_scroll_after_move_witness :
    (ScrollableTextbox.adjust_scroll
        (applyMove MoveOp.pageDown ⟨[['a'], [], ['b']], 0, 1, 0, 1⟩)).scroll_pos ≤
        (ScrollableTextbox.adjust_scroll
          (applyMove MoveOp.pageDown ⟨[['a'], [], ['b']], 0, 1, 0, 1⟩)).current_line ∧
      (ScrollableTextbox.adjust_scroll
          (applyMove MoveOp.pageDown ⟨[['a'], [], ['b']], 0, 1, 0, 1⟩)).current_line ≤
        (ScrollableTextbox.adjust_scroll
            (applyMove MoveOp.pageDown ⟨[['a'], [], ['b']], 0, 1, 0, 1⟩)).scroll_pos +
          (ScrollableTextbox.adjust_scroll
            (applyMove MoveOp.pageDown ⟨[['a'], [], ['b']], 0, 1, 0, 1⟩)).height - 1 ∧
      0 ≤ (ScrollableTextbox.adjust_scroll
        (applyMove MoveOp.pageDown ⟨[['a'], [], ['b']], 0, 1, 0, 1⟩)).scroll_pos :=
  adjust_scroll_after_move ⟨[['a'], [], ['b']], 0, 1, 0, 1⟩ MoveOp.pageDown
    (by decide)

/-- C6: the four boundary operations are exact no-ops on the whole state and
raise nothing (the embedding is total; the source guards every index): back-
space at (0,0), forward delete at the end of the last line, cursor-up on line
0, and cursor-down on the last line. -/
theorem boundary_ops_are_noops (s : ScrollableTextbox) :
    (s.current_line = 0 ∧ s.current_col = 0 → ScrollableTextbox.backspace s = s) ∧
      (s.current_line + 1 = s.lines.length ∧
          s.current_col = (ScrollableTextbox.curLine s).length →
        ScrollableTextbox.delete s = s) ∧
      (s.current_line = 0 → ScrollableTextbox.move_up s = s) ∧
      (s.current_line + 1 = s.lines.length → ScrollableTextbox.move_down s = s) := by
  refine ⟨fun h => ?_, fun h => ?_, fun h => ?_, fun h => ?_⟩
  · rw [ScrollableTextbox.backspace, if_neg (by omega), if_neg (by omega)]
  · rw [ScrollableTextbox.delete, if_neg (by omega), if_neg (by omega)]
  · rw [ScrollableTextbox.move_up, if_neg (by omega)]
  · rw [ScrollableTextbox.move_down, if_neg (by omega)]

theorem boundary_ops_are_noops_witness :
    ScrollableTextbox.backspace ⟨[[]], 0, 0, 0, 1⟩ = ⟨[[]], 0, 0, 0, 1⟩ ∧
      ScrollableTextbox.delete ⟨[[]], 0, 0, 0, 1⟩ = ⟨[[]], 0, 0, 0, 1⟩ ∧
      ScrollableTextbox.move_up ⟨[[]], 0, 0, 0, 1⟩ = ⟨[[]], 0, 0, 0, 1⟩ ∧
      ScrollableTextbox.move_down ⟨[[]], 0, 0, 0, 1⟩ = ⟨[[]], 0, 0, 0, 1⟩ :=
  ⟨(boundary_ops_are_noops _).1 (by decide),
    (boundary_ops_are_noops _).2.1 (by decide),
    (boundary_ops_are_noops _).2.2.1 (by decide),
    (boundary_ops_are_noops _).2.2.2 (by decide)⟩

theorem pyInsertAt_cons {α : Type} (k : Nat) (x a : α) (t : List α) :
    pyInsertAt (k + 1) x (a :: t) = a :: pyInsertAt k x t := by
  simp [pyInsertAt]

theorem getD_pyInsertAt_lt {α : Type} :
    ∀ (i j : Nat) (x d : α) (l : List α), j < i → j < l.length →
      (pyInsertAt i x l).getD j d = l.getD j d
  | 0, _, _, _, _, hj, _ => by omega
  | _ + 1, _, _, _, [], _, hl => by simp at hl
  | i + 1, j, x, d, a :: t, hj, hl => by
    rw [pyInsertAt_cons]
    cases j with
    | zero => rfl
    | succ m =>
      simp only [List.getD_cons_succ]
      exact getD_pyInsertAt_lt i m x d t (by omega) (by simpa using hl)

theorem getD_pyInsertAt_self {α : Type} :
    ∀ (i : Nat) (x d : α) (l : List α), i ≤ l.length →
      (pyInsertAt i x l).getD i d = x
  | 0, _, _, _, _ => rfl
  | _ + 1, _, _, [], hi => by simp at hi
  | i + 1, x, d, a :: t, hi => by
    rw [pyInsertAt_cons]
    simp only [List.getD_cons_succ]
    exact getD_pyInsertAt_self i x d t (by simpa using hi)

theorem eraseIdx_pyInsertAt {α : Type} :
    ∀ (i : Nat) (x : α) (l : List α), i ≤ l.length →
      (pyInsertAt i x l).eraseIdx i = l
  | 0, _, l, _ => by simp [pyInsertAt]
  | _ + 1, _, [], hi => by simp at hi
  | i + 1, x, a :: t, hi => by
    rw [pyInsertAt_cons, List.eraseIdx_cons_succ,
      eraseIdx_pyInsertAt i x t (by simpa using hi)]

theorem set_pyInsertAt {α : Type} :
    ∀ (i j : Nat) (x v : α) (l : List α), j < i → j < l.length →
      (pyInsertAt i x l).set j v = pyInsertAt i x (l.set j v)
  | 0, _, _, _, _, hj, _ => by omega
  | _ + 1, _, _, _, [], _, hl => by simp at hl
  | i + 1, 0, x, v, a :: t, _, _ => by
    rw [pyInsertAt_cons]
    simp [pyInsertAt_cons]
  | i + 1, j + 1, x, v, a :: t, hj, hl => by
    rw [pyInsertAt_cons]
    simp only [List.set_cons_succ]
    rw [pyInsertAt_cons]
    exact congrArg (a :: ·) (set_pyInsertAt i j x v t (by omega) (by simpa using hl))

theorem set_getD_self {α : Type} :
    ∀ (i : Nat) (d : α) (l : List α), i < l.length → l.set i (l.getD i d) = l
  | _, _, [], hi => by simp at hi
  | 0, _, _ :: _, _ => by simp
  | i + 1, d, a :: t, hi => by
    simp only [List.getD_cons_succ, List.set_cons_succ]
    rw [set_getD_self i d t (by simpa using hi)]

theorem getD_set_self {α : Type} :
    ∀ (i : Nat) (v d : α) (l : List α), i < l.length → (l.set i v).getD i d = v
  | _, _, _, [], hi => by simp at hi
  | 0, _, _, _ :: _, _ => rfl
  | i + 1, v, d, a :: t, hi => by
    simp only [List.set_cons_succ, List.getD_cons_succ]
    exact getD_set_self i v d t (by simpa using hi)

/-- C7: from any state satisfying the buffer invariant, `_insert_newline`
followed immediately by `_backspace` (the cursor is then at column 0 of the
newly created line) restores the whole state: the original line list, cursor
line and cursor column. -/
theorem newline_backspace_roundtrip (s : ScrollableTextbox) (h : Inv s) :
    ScrollableTextbox.backspace (ScrollableTextbox.insert_newline s) = s := by
  obtain ⟨lines, line, col, sp, ht⟩ := s
  obtain ⟨h1, h2, h3⟩ := h
  simp only [ScrollableTextbox.curLine] at h2 h3
  have e1 : (pyInsertAt (line + 1) ((lines.getD line []).drop col)
      (lines.set line ((lines.getD line []).take col))).getD line [] =
      (lines.getD line []).take col := by
    rw [getD_pyInsertAt_lt _ _ _ _ _ (Nat.lt_succ_self line) (by simpa using h2)]
    exact getD_set_self line _ [] lines h2
  have e2 : (pyInsertAt (line + 1) ((lines.getD line []).drop col)
      (lines.set line ((lines.getD line []).take col))).getD (line + 1) [] =
      (lines.getD line []).drop col :=
    getD_pyInsertAt_self _ _ _ _ (by simpa using h2)
  have e3 : ((pyInsertAt (line + 1) ((lines.getD line []).drop col)
      (lines.set line ((lines.getD line []).take col))).set line
        ((lines.getD line []).take col ++ (lines.getD line []).drop col)).eraseIdx
      (line + 1) = lines := by
    rw [List.take_append_drop,
      set_pyInsertAt _ _ _ _ _ (Nat.lt_succ_self line) (by simpa using h2),
      List.set_set, set_getD_self _ _ _ h2,
      eraseIdx_pyInsertAt _ _ _ (by omega)]
  simp only [ScrollableTextbox.insert_newline, ScrollableTextbox.backspace,
    ScrollableTextbox.curLine, Nat.lt_irrefl, if_false, Nat.succ_pos,
    if_true, Nat.add_sub_cancel, e1, e2, e3]
  simp only [ScrollableTextbox.mk.injEq, List.length_take, true_and, and_true]
  omega

theorem newline_backspace_roundtrip_witness :
    ScrollableTextbox.backspace (ScrollableTextbox.insert_newline
        ⟨[['a', 'b', 'c']], 0, 1, 0, 3⟩) = ⟨[['a', 'b', 'c']], 0, 1, 0, 3⟩ :=
  newline_backspace_roundtrip ⟨[['a', 'b', 'c']], 0, 1, 0, 3⟩ (by decide)

/-- `'\n'.join(self.lines)`. -/
def joinLines (ls : List (List Char)) : List Char :=
  List.intercalate ['\n'] ls

/-- One input event of the editing loop: a key code delivered by `getch`, or
a `KeyboardInterrupt` raised while the loop waits for or handles input. -/
inductive Ev where
  | key (ch : Nat)
  | interrupt
deriving DecidableEq, Repr

open ScrollableTextbox in
/-- The per-key dispatch chain of `edit`, in source order, with the ncurses
key codes (KEY_UP 259, KEY_DOWN 258, KEY_LEFT 260, KEY_RIGHT 261, KEY_HOME
262, KEY_END 360, KEY_PPAGE 339, KEY_NPAGE 338, Enter 10, Backspace 127 or
KEY_BACKSPACE 263, KEY_DC 330, KEY_RESIZE 410, Ctrl+V 22).  The resize and
paste branches only redraw, so they leave the buffer state unchanged;
`chr(ch)` is `Char.ofNat`. -/
def dispatch (ch : Nat) (s : ScrollableTextbox) : ScrollableTextbox :=
  if ch = 259 then move_up s
  else if ch = 258 then move_down s
  else if ch = 260 then move_left s
  else if ch = 261 then move_right s
  else if ch = 262 then { s with current_col := 0 }
  else if ch = 360 then { s with current_col := s.curLine.length }
  else if ch = 339 then page_up s
  else if ch = 338 then page_down s
  else if ch = 10 then insert_newline s
  else if ch = 127 ∨ ch = 263 then backspace s
  else if ch = 330 then delete s
  else if ch = 410 then s
  else if ch = 22 then s
  else if (32 ≤ ch ∧ ch ≤ 126) ∨ 127 < ch then insert_char (Char.ofNat ch) s
  else s

/-- The blocking loop of `edit` over a stream of input events.  Each
iteration redraws (which adjusts the scroll position), then consumes one
event: Ctrl+G (code 7) commits and returns the newline-joined text after
`fix_encoding`; a `KeyboardInterrupt` returns the empty string immediately;
any other key is dispatched and the loop continues.  `none` models a stream
exhausted with the loop still blocked on input. -/
def edit (s : ScrollableTextbox) : List Ev → Option (List Char)
  | [] => none
  | Ev.interrupt :: _ => some []
  | Ev.key ch :: evs =>
    let t := ScrollableTextbox.adjust_scroll s
    if ch = 7 then some (fix_encoding (joinLines t.lines))
    else edit (dispatch ch t) evs

/-- Events on which the loop stops: the commit key Ctrl+G or an interrupt. -/
def Ev.stops : Ev → Bool
  | Ev.interrupt => true
  | Ev.key ch => ch = 7

example :
    edit ⟨[[]], 0, 0, 0, 2⟩ [Ev.key 104, Ev.key 105, Ev.key 7] =
      some ("hi").toList := by decide

/-- C8: whenever an interruption signal arrives before any commit key, the
editing loop terminates with the empty string, discarding the buffer
content; no partial content is returned. -/
theorem edit_interrupted_returns_empty (s : ScrollableTextbox)
    (pre post : List Ev) (h : ∀ e ∈ pre, Ev.stops e = false) :
    edit s (pre ++ Ev.interrupt :: post) = some [] := by
  induction pre generalizing s with
  | nil => rfl
  | cons e pre ih =>
    match e with
    | Ev.interrupt =>
      exact absurd (h _ (List.mem_cons_self _ _)) (by simp [Ev.stops])
    | Ev.key ch =>
      have h7 : ¬ ch = 7 := by
        have := h _ (List.mem_cons_self _ _)
        simpa [Ev.stops] using this
      rw [List.cons_append, edit, if_neg h7]
      exact ih _ (fun e he => h e (List.mem_cons_of_mem _ he))

theorem edit_interrupted_returns_empty_witness :
    edit ⟨[['h', 'i']], 0, 0, 0, 2⟩
        ([Ev.key 258, Ev.key 97] ++ Ev.interrupt :: [Ev.key 7]) = some [] :=
  edit_interrupted_returns_empty ⟨[['h', 'i']], 0, 0, 0, 2⟩
    [Ev.key 258, Ev.key 97] [Ev.key 7] (by decide)

/-- The pairing loop of `generate_latex`: `num_dialogues` is the minimum of
the two lengths and iteration `i` of `range(num_dialogues)` consumes
`(left_dialogues[i], right_dialogues[i])`.  The per-entry formatting
(bracket stripping, `fix_encoding`, escaping) changes only the emitted text,
not the number or order of paired entries. -/
def generate_latex_pairs (ld rd : List (List Char × List Char)) :
    List ((List Char × List Char) × (List Char × List Char)) :=
  (List.range (min ld.length rd.length)).map
    (fun i => (ld.getD i ([], []), rd.getD i ([], [])))

theorem generate_latex_pairs_eq_zip :
    ∀ ld rd : List (List Char × List Char),
      generate_latex_pairs ld rd = ld.zip rd
  | [], rd => by simp [generate_latex_pairs]
  | a :: l, [] => by simp [generate_latex_pairs]
  | a :: l, b :: r => by
    have ih := generate_latex_pairs_eq_zip l r
    show (List.range (min (l.length + 1) (r.length + 1))).map
        (fun i => ((a :: l).getD i ([], []), (b :: r).getD i ([], []))) =
      (a :: l).zip (b :: r)
    rw [Nat.succ_min_succ, List.range_succ_eq_map, List.map_cons, List.map_map,
      show ((fun i => ((a :: l).getD i ([], []), (b :: r).getD i ([], []))) ∘
          Nat.succ) = (fun i => (l.getD i ([], []), r.getD i ([], []))) from
        funext fun i => by simp,
      List.zip_cons_cons]
    exact congrArg (List.cons (a, b)) ih

/-- C9: the generator pairs entries positionally and emits exactly
`min(len(left), len(right))` paired entries; in particular 3 entries paired
against 5 yield exactly 3 pairs. -/
theorem generate_latex_pair_count :
    (∀ ld rd : List (List Char × List Char),
      (generate_latex_pairs ld rd).length = min ld.length rd.length ∧
        generate_latex_pairs ld rd = ld.zip rd) ∧
      (generate_latex_pairs
          [(("[A]").toList, ("a").toList), (("[B]").toList, ("b").toList),
            (("[C]").toList, ("c").toList)]
          [(("[P]").toList, ("p").toList), (("[Q]").toList, ("q").toList),
            (("[R]").toList, ("r").toList), (("[S]").toList, ("s").toList),
            (("[T]").toList, ("t").toList)]).length = 3 := by
  refine ⟨fun ld rd => ⟨?_, generate_latex_pairs_eq_zip ld rd⟩, by decide⟩
  simp [generate_latex_pairs]

end PT
